import Mathlib

/-!
# Verification of the openai_proxy request/response pipeline

Shallow embedding of `src/main.rs` (dessli/openai_proxy): a reverse proxy in
front of an OpenAI-compatible API.  The embedding covers the request
transformer (URL construction, method mapping, header filtering, conditional
JSON body mutation), the response post-processor (model-list fallback and
default pass-through), and the error mapping of `ProxyError`.

Conventions:
* JSON values are the inductive `Json` below.  Objects mirror
  `serde_json::Map` with its default `BTreeMap` backing: keys are kept
  sorted and unique, and `insert` overwrites the value of an existing key.
  Numbers are modelled as integers (the claims under study never depend on
  float formatting).
* Header names are strings; the `http` crate normalizes inbound and upstream
  header names to lowercase before the handler sees them, which the model
  makes explicit with `String.toLower` where relevant.
* The external collaborators (reading the inbound body, the upstream HTTP
  call, reading the upstream body) are modelled as `Except`-valued inputs of
  the handler function, since the handler only branches on their results.
-/

namespace OpenAIProxy

/-- One registry entry, `struct ModelInfo` of main.rs (fields `id`, `object`,
`owned_by`, `enable_thinking`, `reasoning_effort`). -/
structure ModelInfo where
  id : String
  object : String
  owned_by : String
  enable_thinking : Bool
  reasoning_effort : String
deriving Repr, DecidableEq

/-- JSON values as manipulated through `serde_json::Value`.  Object fields
are an association list with sorted, unique keys (the `BTreeMap` backing of
`serde_json::Map`). -/
inductive Json where
  | null : Json
  | bool (b : Bool) : Json
  | num (n : Int) : Json
  | str (s : String) : Json
  | arr (elems : List Json) : Json
  | obj (fields : List (String × Json)) : Json
deriving Repr

/-- Lexicographic order on character lists (UTF-8 byte order and codepoint
order coincide), the `Ord` used by `BTreeMap<String, _>`. -/
def charListLt : List Char → List Char → Bool
  | [], [] => false
  | [], _ :: _ => true
  | _ :: _, [] => false
  | a :: as, b :: bs =>
    if a.toNat < b.toNat then true
    else if b.toNat < a.toNat then false
    else charListLt as bs

/-- String order as `BTreeMap` keys compare. -/
def strLt (a b : String) : Bool := charListLt a.data b.data

/-- Is the second list a prefix of the first? -/
def listStartsWith : List Char → List Char → Bool
  | _, [] => true
  | [], _ :: _ => false
  | a :: as, b :: bs => a == b && listStartsWith as bs

/-- Rust `str::ends_with` on the plain suffix string. -/
def strEndsWith (s t : String) : Bool :=
  listStartsWith s.data.reverse t.data.reverse

/-- ASCII lowercasing of a header name, as the `http` crate's `HeaderName`
normalization performs it. -/
def lowerStr (s : String) : String := String.mk (s.data.map Char.toLower)

/-- First-match lookup in an object's field list, `serde_json::Map::get`.
(On the sorted unique field lists produced by parsing there is at most one
match, so first-match agrees with the map lookup.) -/
def jlookup : List (String × Json) → String → Option Json
  | [], _ => none
  | (k, v) :: rest, key => if k = key then some v else jlookup rest key

/-- `serde_json::Map::insert` on the sorted association list: overwrite the
value if the key is present, otherwise insert at the sorted position. -/
def insertField : List (String × Json) → String → Json → List (String × Json)
  | [], key, v => [(key, v)]
  | (k, w) :: rest, key, v =>
    if key = k then (key, v) :: rest
    else if strLt key k then (key, v) :: (k, w) :: rest
    else (k, w) :: insertField rest key v

/-- `state.available_models.iter().find(|m| m.id == model_name)` — first
match in declaration order. -/
def findModel (models : List ModelInfo) (name : String) : Option ModelInfo :=
  models.find? (fun m => m.id == name)

/-- The value `serde_json::json!({"type": "enabled"})` inserted under
`thinking`. -/
def thinkingVal : Json := Json.obj [("type", Json.str "enabled")]

/-- The body mutation of `proxy_handler` (main.rs lines 188–224) on the
parsed `serde_json::Value`: if the value is an object whose `model` field is
a string naming a registry entry with `enable_thinking = true`, insert
`thinking` then `reasoning_effort`; in every other case the value is left
untouched. -/
def transformValue (models : List ModelInfo) (j : Json) : Json :=
  match j with
  | Json.obj fields =>
    match jlookup fields "model" with
    | some (Json.str modelName) =>
      match findModel models modelName with
      | some mc =>
        if mc.enable_thinking then
          Json.obj (insertField
            (insertField fields "thinking" thinkingVal)
            "reasoning_effort" (Json.str mc.reasoning_effort))
        else Json.obj fields
      | none => Json.obj fields
    | _ => Json.obj fields
  | _ => j

/-- `serde_json::Value::is_object`. -/
def Json.isObj : Json → Bool
  | Json.obj _ => true
  | _ => false

/-! ## Serialization (`serde_json::to_vec` / `to_string`, compact form) -/

/-- JSON string escaping as performed by `serde_json`'s compact serializer:
quote and backslash escaped, control characters below 0x20 escaped with the
short forms or `\u00XX`. -/
def escapeChar (c : Char) : String :=
  if c = '\x22' then "\\\x22"
  else if c = '\\' then "\\\\"
  else if c = '\x08' then "\\b"
  else if c = '\t' then "\\t"
  else if c = '\n' then "\\n"
  else if c = '\x0c' then "\\f"
  else if c = '\r' then "\\r"
  else if c.toNat < 0x20 then
    "\\u00" ++ String.mk [hexDigit (c.toNat / 16), hexDigit (c.toNat % 16)]
  else String.singleton c
where
  hexDigit (n : Nat) : Char :=
    if n < 10 then Char.ofNat (48 + n) else Char.ofNat (87 + n)

/-- A JSON string literal: quoted, escaped content. -/
def quoteStr (s : String) : String :=
  "\x22" ++ String.join (s.data.map escapeChar) ++ "\x22"

mutual

/-- Compact serialization of a `Json` value, mirroring
`serde_json::to_vec(&json)` (no inter-token whitespace; object fields in the
stored — sorted — order, matching the `BTreeMap` map backing). -/
def serializeJson : Json → String
  | Json.null => "null"
  | Json.bool true => "true"
  | Json.bool false => "false"
  | Json.num n => toString n
  | Json.str s => quoteStr s
  | Json.arr es => "[" ++ serializeElems es ++ "]"
  | Json.obj fs => "\x7b" ++ serializeFields fs ++ "\x7d"

/-- Comma-separated serialization of array elements. -/
def serializeElems : List Json → String
  | [] => ""
  | [x] => serializeJson x
  | x :: y :: xs => serializeJson x ++ "," ++ serializeElems (y :: xs)

/-- Comma-separated serialization of object members. -/
def serializeFields : List (String × Json) → String
  | [] => ""
  | [(k, v)] => quoteStr k ++ ":" ++ serializeJson v
  | (k, v) :: q :: fs => quoteStr k ++ ":" ++ serializeJson v ++ "," ++ serializeFields (q :: fs)

end

/-! ## Parsing (`serde_json::from_slice::<serde_json::Value>`)

The recursive-descent parser below models `serde_json`'s grammar on the
fragment the proxy's claims exercise: whitespace, `null`, booleans, strings
(with the standard escapes including non-surrogate `\uXXXX`), integer
numbers, arrays and objects.  Inputs using float syntax (`.`, `e`, `E` in a
number) or surrogate escapes are outside the modelled fragment and are
rejected.  Duplicate object keys keep the last value, as `BTreeMap::insert`
does. -/

/-- JSON whitespace skipping (space, tab, line feed, carriage return). -/
def skipWs : List Char → List Char
  | c :: cs => if c = ' ' ∨ c = '\t' ∨ c = '\n' ∨ c = '\r' then skipWs cs else c :: cs
  | [] => []

/-- Hex digit value, if the character is one. -/
def hexVal (c : Char) : Option Nat :=
  if '0' ≤ c ∧ c ≤ '9' then some (c.toNat - 48)
  else if 'a' ≤ c ∧ c ≤ 'f' then some (c.toNat - 87)
  else if 'A' ≤ c ∧ c ≤ 'F' then some (c.toNat - 55)
  else none

/-- Parse the body of a JSON string literal (after the opening quote),
returning the accumulated characters and the rest of the input. -/
def parseStringBody : List Char → List Char → Option (String × List Char)
  | acc, '\x22' :: cs => some (String.mk acc.reverse, cs)
  | acc, '\\' :: e :: cs =>
    if e = '\x22' then parseStringBody ('\x22' :: acc) cs
    else if e = '\\' then parseStringBody ('\\' :: acc) cs
    else if e = '/' then parseStringBody ('/' :: acc) cs
    else if e = 'b' then parseStringBody ('\x08' :: acc) cs
    else if e = 'f' then parseStringBody ('\x0c' :: acc) cs
    else if e = 'n' then parseStringBody ('\n' :: acc) cs
    else if e = 'r' then parseStringBody ('\r' :: acc) cs
    else if e = 't' then parseStringBody ('\t' :: acc) cs
    else if e = 'u' then
      match cs with
      | a :: b :: c :: d :: cs' =>
        match hexVal a, hexVal b, hexVal c, hexVal d with
        | some ha, some hb, some hc, some hd =>
          let n := ((ha * 16 + hb) * 16 + hc) * 16 + hd
          if 0xD800 ≤ n ∧ n ≤ 0xDFFF then none
          else parseStringBody (Char.ofNat n :: acc) cs'
        | _, _, _, _ => none
      | _ => none
    else none
  | _, '\\' :: [] => none
  | acc, c :: cs => if c.toNat < 0x20 then none else parseStringBody (c :: acc) cs
  | _, [] => none

/-- Parse a run of decimal digits into an accumulator. -/
def parseDigits : List Char → Nat → Nat × List Char
  | c :: cs, acc =>
    if '0' ≤ c ∧ c ≤ '9' then parseDigits cs (acc * 10 + (c.toNat - 48))
    else (acc, c :: cs)
  | [], acc => (acc, [])

/-- Parse an unsigned JSON integer (leading-zero rule of the JSON grammar:
`0` or a nonzero digit followed by digits), rejecting float syntax. -/
def parseNat : List Char → Option (Nat × List Char)
  | '0' :: cs =>
    match cs with
    | c :: _ =>
      if ('0' ≤ c ∧ c ≤ '9') ∨ c = '.' ∨ c = 'e' ∨ c = 'E' then none
      else some (0, cs)
    | [] => some (0, [])
  | c :: cs =>
    if '1' ≤ c ∧ c ≤ '9' then
      let (n, rest) := parseDigits cs (c.toNat - 48)
      match rest with
      | r :: _ => if r = '.' ∨ r = 'e' ∨ r = 'E' then none else some (n, rest)
      | [] => some (n, [])
    else none
  | [] => none

/-- Does the input start with the given keyword? Returns the rest. -/
def parseKeyword : List Char → List Char → Option (List Char)
  | [], cs => some cs
  | k :: ks, c :: cs => if c = k then parseKeyword ks cs else none
  | _ :: _, [] => none

mutual

/-- Fuel-indexed recursive-descent parser for a JSON value.  Returns the
parsed value and the unconsumed input. -/
def parseValue : Nat → List Char → Option (Json × List Char)
  | 0, _ => none
  | fuel + 1, input =>
    match skipWs input with
    | [] => none
    | c :: cs =>
      if c = 'n' then (parseKeyword ['u', 'l', 'l'] cs).map (fun r => (Json.null, r))
      else if c = 't' then (parseKeyword ['r', 'u', 'e'] cs).map (fun r => (Json.bool true, r))
      else if c = 'f' then (parseKeyword ['a', 'l', 's', 'e'] cs).map (fun r => (Json.bool false, r))
      else if c = '\x22' then (parseStringBody [] cs).map (fun p => (Json.str p.1, p.2))
      else if c = '-' then (parseNat cs).map (fun p => (Json.num (-(p.1 : Int)), p.2))
      else if c = '[' then
        match skipWs cs with
        | ']' :: rest => some (Json.arr [], rest)
        | cs' => (parseElems fuel cs' []).map (fun p => (Json.arr p.1, p.2))
      else if c = '\x7b' then
        match skipWs cs with
        | '\x7d' :: rest => some (Json.obj [], rest)
        | cs' => (parseMembers fuel cs' []).map (fun p => (Json.obj p.1, p.2))
      else (parseNat (c :: cs)).map (fun p => (Json.num (p.1 : Int), p.2))

/-- Parse the remaining elements of a non-empty array (accumulator in
reverse order). -/
def parseElems : Nat → List Char → List Json → Option (List Json × List Char)
  | 0, _, _ => none
  | fuel + 1, input, acc =>
    match parseValue fuel input with
    | none => none
    | some (v, rest) =>
      match skipWs rest with
      | ',' :: rest' => parseElems fuel rest' (v :: acc)
      | ']' :: rest' => some ((v :: acc).reverse, rest')
      | _ => none

/-- Parse the remaining members of a non-empty object.  Fields accumulate
through `insertField`, so duplicate keys keep the last value and the result
is sorted — exactly the `BTreeMap` behaviour of `serde_json::Map`. -/
def parseMembers : Nat → List Char → List (String × Json) →
    Option (List (String × Json) × List Char)
  | 0, _, _ => none
  | fuel + 1, input, acc =>
    match skipWs input with
    | '\x22' :: cs =>
      match parseStringBody [] cs with
      | none => none
      | some (key, rest) =>
        match skipWs rest with
        | ':' :: rest' =>
          match parseValue fuel rest' with
          | none => none
          | some (v, rest2) =>
            match skipWs rest2 with
            | ',' :: rest3 => parseMembers fuel rest3 (insertField acc key v)
            | '\x7d' :: rest3 => some (insertField acc key v, rest3)
            | _ => none
        | _ => none
    | _ => none

end

/-- `serde_json::from_slice::<Value>` on a whole input: parse one value and
require only whitespace to remain. -/
def parseJson (s : String) : Option Json :=
  match parseValue (2 * s.length + 2) s.data with
  | some (j, rest) => if skipWs rest = [] then some j else none
  | none => none

/-! ## The request transformer (main.rs lines 154–266) -/

/-- `struct AppState` (the fields the handler reads). -/
structure AppState where
  openai_api_key : String
  openai_api_base : String
  available_models : List ModelInfo

/-- The whole body-mutation step (main.rs lines 186–231): empty bodies pass
through, unparseable bodies pass through byte-for-byte, parsed values are
transformed and re-serialized. -/
def processBody (models : List ModelInfo) (body : String) : String :=
  if body = "" then body
  else
    match parseJson body with
    | some j => serializeJson (transformValue models j)
    | none => body

/-- Rust `str::trim_start_matches('/')`: drop every leading slash. -/
def stripLeadingSlashes : List Char → List Char
  | [] => []
  | c :: cs => if c = '/' then stripLeadingSlashes cs else c :: cs

/-- Rust `str::trim_end_matches('/')`: drop every trailing slash. -/
def stripTrailingSlashes : List Char → List Char
  | [] => []
  | c :: cs =>
    let r := stripTrailingSlashes cs
    if r.isEmpty then (if c = '/' then [] else [c]) else c :: r

/-- `req.uri().path().trim_start_matches('/')` (main.rs line 160). -/
def strippedPath (p : String) : String :=
  String.mk (stripLeadingSlashes p.data)

/-- URL construction (main.rs lines 164–173), on the already-stripped path:
`format!("{}/{}", base.trim_end_matches('/'), path)`, with `?query` appended
when the query is non-empty. -/
def buildUrl (base pathStripped query : String) : String :=
  if query = "" then
    String.mk (stripTrailingSlashes base.data) ++ "/" ++ pathStripped
  else
    String.mk (stripTrailingSlashes base.data) ++ "/" ++ pathStripped ++ "?" ++ query

/-- Modelled from the spec's formula for comparison with `buildUrl`:
`base.rstrip('/') + '/' + path.lstrip('/')` optionally suffixed with
`'?' + query` when the query is non-empty (§8 of the spec).  The strips are
phrased independently, through `List.dropWhile`. -/
def specUrlFormula (base path query : String) : String :=
  String.mk ((base.data.reverse.dropWhile (fun c => c = '/')).reverse)
    ++ "/" ++ String.mk (path.data.dropWhile (fun c => c = '/'))
    ++ (if query = "" then "" else "?" ++ query)

/-- Method mapping (main.rs lines 234–243): the seven standard verbs map to
themselves, anything else defaults to POST. -/
def mapMethod : String → String
  | "GET" => "GET"
  | "POST" => "POST"
  | "PUT" => "PUT"
  | "DELETE" => "DELETE"
  | "PATCH" => "PATCH"
  | "HEAD" => "HEAD"
  | "OPTIONS" => "OPTIONS"
  | _ => "POST"

/-- The `http` crate normalizes header names to lowercase before the handler
ever sees them; header values are modelled as their text form
(`value.to_str().unwrap_or_default()`). -/
def normalizeHeaders (hs : List (String × String)) : List (String × String) :=
  hs.map (fun p => (lowerStr p.1, p.2))

/-- The skip test of the forwarding loop (main.rs line 256). -/
def isSkippedInbound (n : String) : Bool :=
  n == "host" || n == "authorization" || n == "content-length"

/-- The header-forwarding loop (main.rs lines 253–261) on the normalized
inbound headers. -/
def forwardedHeaders (hs : List (String × String)) : List (String × String) :=
  (normalizeHeaders hs).filter (fun p => !isSkippedInbound p.1)

/-- The outbound header list (main.rs lines 246–261).  `reqwest`'s
`RequestBuilder::header` *appends* to the request's header map, so the two
fixed headers come first and every forwarded inbound header is added after
them — a forwarded header never replaces the fixed ones, nor vice versa. -/
def outboundHeaders (key : String) (hs : List (String × String)) : List (String × String) :=
  ("authorization", "Bearer " ++ key) :: ("content-type", "application/json")
    :: forwardedHeaders hs

/-- The outbound request descriptor assembled by the request-transformer
half of `proxy_handler`. -/
structure OutboundRequest where
  url : String
  method : String
  headers : List (String × String)
  body : String
deriving Repr, DecidableEq

/-- The request-transformer half of `proxy_handler` (main.rs lines 160–266):
URL, method, headers and mutated body of the upstream call. -/
def buildOutboundRequest (st : AppState) (path query method : String)
    (hs : List (String × String)) (body : String) : OutboundRequest :=
  { url := buildUrl st.openai_api_base (strippedPath path) query
    method := mapMethod method
    headers := outboundHeaders st.openai_api_key hs
    body := processBody st.available_models body }

/-! ## The response post-processor (main.rs lines 269–329) -/

/-- `enum ProxyError` of main.rs. -/
inductive ProxyError where
  | RequestError (msg : String)
  | ResponseError (msg : String)
  | BodyReadError (msg : String)
deriving Repr, DecidableEq

/-- The status chosen by `ProxyError::into_response` (main.rs lines 61–72):
`BAD_GATEWAY` (502) for the two upstream failures, `INTERNAL_SERVER_ERROR`
(500) for a body-read failure. -/
def ProxyError.status : ProxyError → Nat
  | ProxyError.RequestError _ => 502
  | ProxyError.ResponseError _ => 502
  | ProxyError.BodyReadError _ => 500

/-- The message carried by the error. -/
def ProxyError.msg : ProxyError → String
  | ProxyError.RequestError m => m
  | ProxyError.ResponseError m => m
  | ProxyError.BodyReadError m => m

/-- An HTTP response as the handler produces it. -/
structure HttpResponse where
  status : Nat
  headers : List (String × String)
  body : String
deriving Repr, DecidableEq

/-- `ProxyError::into_response`: the mapped status with a plain
`Proxy error: <msg>` body and no extra headers. -/
def ProxyError.intoResponse (e : ProxyError) : HttpResponse :=
  { status := e.status, headers := [], body := "Proxy error: " ++ e.msg }

/-- What `reqwest` hands back for the upstream call: status (a valid HTTP
code, 100–999), headers (names lowercased by the `http` crate, values as
text) and the body — whose retrieval (`response.bytes().await`) can fail,
hence `Except`. -/
structure UpstreamResponse where
  status : Nat
  headers : List (String × String)
  body : Except String String

/-- `StatusCode::from_u16(...).unwrap_or(INTERNAL_SERVER_ERROR)` (main.rs
lines 275–276): `http`'s `StatusCode` accepts 100–999. -/
def normStatus (s : Nat) : Nat :=
  if 100 ≤ s ∧ s ≤ 999 then s else 500

/-- `HeaderMap::insert`: replaces every previous value stored under the
name. -/
def hmInsert (hm : List (String × String)) (n v : String) : List (String × String) :=
  hm.filter (fun p => p.1 != n) ++ [(n, v)]

/-- One iteration of the response-header copying loop (main.rs lines
285–296): skip `content-length` and `transfer-encoding`, `insert`
everything else. -/
def respHeaderStep (acc : List (String × String)) (p : String × String) :
    List (String × String) :=
  if p.1 == "content-length" || p.1 == "transfer-encoding" then acc
  else hmInsert acc p.1 p.2

/-- The whole response-header copying loop: because `insert` replaces, a
repeated upstream name keeps only its last value. -/
def filterRespHeaders (uh : List (String × String)) : List (String × String) :=
  uh.foldl respHeaderStep []

/-- Serialization of one registry entry as `serde_json::json!` produces it:
all five `ModelInfo` fields, keys in the sorted order of the `BTreeMap`
object representation. -/
def modelInfoJson (m : ModelInfo) : Json :=
  Json.obj [("enable_thinking", Json.bool m.enable_thinking),
            ("id", Json.str m.id),
            ("object", Json.str m.object),
            ("owned_by", Json.str m.owned_by),
            ("reasoning_effort", Json.str m.reasoning_effort)]

/-- The synthesized model-list document
`{"object": "list", "data": [...]}` (main.rs lines 315–318), with the
registry entries in declaration order. -/
def modelsListJson (models : List ModelInfo) : Json :=
  Json.obj [("data", Json.arr (models.map modelInfoJson)),
            ("object", Json.str "list")]

/-- `return_configured_models` (main.rs lines 314–329): status 200, a single
`content-type: application/json` header, and the serialized model list as
body. -/
def returnConfiguredModels (models : List ModelInfo) : HttpResponse :=
  { status := 200
    headers := [("content-type", "application/json")]
    body := serializeJson (modelsListJson models) }

/-- `proxy_handler` (main.rs lines 154–312) with its three suspension points
supplied as inputs: the inbound body read, the upstream call, and — inside
`UpstreamResponse` — the upstream body read.  Mirrors the handler's control
flow: a body-read failure aborts first; an upstream-send failure aborts
next; then, if the stripped path ends in `/models` and the status is 404,
the synthesized list is returned *before* the upstream body is ever read;
otherwise the upstream body is read (possibly failing) and the response is
passed through with filtered headers. -/
def proxyHandler (st : AppState) (path : String)
    (bodyRead : Except String String)
    (upstream : Except String UpstreamResponse) : Except ProxyError HttpResponse :=
  match bodyRead with
  | Except.error e => Except.error (ProxyError.BodyReadError e)
  | Except.ok _body =>
    match upstream with
    | Except.error e => Except.error (ProxyError.RequestError e)
    | Except.ok u =>
      let status := normStatus u.status
      if strEndsWith (strippedPath path) "/models" && status == 404 then
        Except.ok (returnConfiguredModels st.available_models)
      else
        match u.body with
        | Except.error e => Except.error (ProxyError.ResponseError e)
        | Except.ok b =>
          Except.ok { status := status, headers := filterRespHeaders u.headers, body := b }

/-- The response actually sent to the client: `Ok` passes through, `Err`
goes through `ProxyError::into_response` (axum's `IntoResponse` for the
`Result`). -/
def renderHandler (st : AppState) (path : String)
    (bodyRead : Except String String)
    (upstream : Except String UpstreamResponse) : HttpResponse :=
  match proxyHandler st path bodyRead upstream with
  | Except.ok r => r
  | Except.error e => e.intoResponse

/-! ## Concrete test fixtures -/

/-- A minimal application state with an empty registry. -/
def demoState : AppState :=
  { openai_api_key := "k", openai_api_base := "https://upstream.example", available_models := [] }

/-- A registry entry with thinking enabled. -/
def demoModel : ModelInfo :=
  { id := "m1", object := "model", owned_by := "org", enable_thinking := true,
    reasoning_effort := "high" }

/-- A state whose registry holds `demoModel`. -/
def demoStateWithModel : AppState :=
  { openai_api_key := "k", openai_api_base := "https://upstream.example",
    available_models := [demoModel] }

/-- The parsed fields of `demoBody`. -/
def demoFields : List (String × Json) := [("model", Json.str "m1"), ("x", Json.num 1)]

/-- A chat-completion style request body naming `demoModel`. -/
def demoBody : String := "\x7b\x22model\x22:\x22m1\x22,\x22x\x22:1\x7d"

/-- Registry with a duplicated id: the first entry has effort `low`, the
shadowed second one `high`. -/
def dupFirst : ModelInfo :=
  { id := "dup", object := "model", owned_by := "org", enable_thinking := true,
    reasoning_effort := "low" }

/-- The shadowed duplicate entry. -/
def dupSecond : ModelInfo :=
  { id := "dup", object := "model", owned_by := "org", enable_thinking := true,
    reasoning_effort := "high" }

/-- A registry entry whose id does not collide. -/
def otherModel : ModelInfo :=
  { id := "other", object := "model", owned_by := "org", enable_thinking := false,
    reasoning_effort := "medium" }

/-- Request-body fields naming the duplicated id. -/
def demoDupFields : List (String × Json) := [("model", Json.str "dup")]

/-! ## Basic lemmas about field lookup and insertion -/

theorem jlookup_insertField_self (fs : List (String × Json)) (k : String) (v : Json) :
    jlookup (insertField fs k v) k = some v := by
  induction fs with
  | nil => simp [insertField, jlookup]
  | cons p rest ih =>
    obtain ⟨k', w⟩ := p
    by_cases h : k = k'
    · simp [insertField, h, jlookup]
    · by_cases h2 : strLt k k'
      · simp [insertField, h, h2, jlookup]
      · simp [insertField, h, h2, jlookup, Ne.symm h, ih]

theorem jlookup_insertField_other (fs : List (String × Json)) (k k2 : String) (v : Json)
    (hne : k2 ≠ k) : jlookup (insertField fs k v) k2 = jlookup fs k2 := by
  induction fs with
  | nil => simp [insertField, jlookup, Ne.symm hne]
  | cons p rest ih =>
    obtain ⟨k', w⟩ := p
    by_cases h : k = k'
    · subst h
      simp [insertField, jlookup, Ne.symm hne]
    · by_cases h2 : strLt k k'
      · simp [insertField, h, h2, jlookup, Ne.symm hne]
      · simp [insertField, h, h2, jlookup, ih]

theorem jlookup_insertField_isSome (fs : List (String × Json)) (k k2 : String) (v : Json) :
    (jlookup (insertField fs k v) k2).isSome = ((jlookup fs k2).isSome || (k2 == k)) := by
  by_cases h : k2 = k
  · subst h
    simp [jlookup_insertField_self]
  · simp [jlookup_insertField_other fs k k2 v h, h]

/-! ## Slash-stripping agrees with the spec's `lstrip`/`rstrip` formulas -/

theorem stripLeadingSlashes_eq_dropWhile (cs : List Char) :
    stripLeadingSlashes cs = cs.dropWhile (fun c => c = '/') := by
  induction cs with
  | nil => rfl
  | cons c cs ih =>
    by_cases h : c = '/'
    · simp [stripLeadingSlashes, List.dropWhile_cons, h, ih]
    · simp [stripLeadingSlashes, List.dropWhile_cons, h]

theorem dropWhile_append_singleton (p : Char → Bool) (xs : List Char) (c : Char) :
    List.dropWhile p (xs ++ [c]) =
      if (List.dropWhile p xs).isEmpty then (if p c then [] else [c])
      else List.dropWhile p xs ++ [c] := by
  induction xs with
  | nil => by_cases h : p c <;> simp [List.dropWhile_cons, h]
  | cons x xs ih =>
    by_cases h : p x
    · simpa [List.dropWhile_cons, h] using ih
    · simp [List.dropWhile_cons, h]

theorem stripTrailingSlashes_eq_dropWhile (cs : List Char) :
    stripTrailingSlashes cs = (cs.reverse.dropWhile (fun c => c = '/')).reverse := by
  induction cs with
  | nil => rfl
  | cons c cs ih =>
    rw [stripTrailingSlashes, ih, List.reverse_cons,
      dropWhile_append_singleton (fun c => c = '/') cs.reverse c]
    by_cases h : (cs.reverse.dropWhile (fun c => c = '/')).isEmpty
    · rw [List.isEmpty_iff] at h
      by_cases hc : c = '/' <;> simp [h, hc]
    · rw [List.isEmpty_iff] at h
      simp [h, List.isEmpty_iff]

/-- **C6.**  For every inbound path and query, the constructed upstream URL
equals the configured base URL with any trailing `/` stripped, followed by
`/`, then the inbound path with any leading `/` stripped, suffixed with
`?` + query exactly when the query is non-empty (appended verbatim): the
code's `buildUrl` agrees with the spec's
`base.rstrip('/') + '/' + path.lstrip('/') (+ '?' + query)` formula on all
inputs. -/
theorem url_construction_matches_spec (base path query : String) :
    buildUrl base (strippedPath path) query = specUrlFormula base path query := by
  unfold buildUrl specUrlFormula strippedPath
  rw [stripLeadingSlashes_eq_dropWhile, stripTrailingSlashes_eq_dropWhile]
  by_cases h : query = "" <;> simp [h, String.append_assoc]

/-- Witness for C6 at a base with a trailing slash, a multi-segment path
and a query containing `&` and `=`. -/
theorem url_construction_matches_spec_witness :
    buildUrl "https://api.openai.com/" (strippedPath "/v3/v1/chat/completions") "a=b&c=d"
      = specUrlFormula "https://api.openai.com/" "/v3/v1/chat/completions" "a=b&c=d" :=
  url_construction_matches_spec "https://api.openai.com/" "/v3/v1/chat/completions" "a=b&c=d"

/-! ## Registry lookup -/

theorem findModel_append_first (pre : List ModelInfo) (e : ModelInfo) (post : List ModelInfo)
    (m : String) (hpre : ∀ x ∈ pre, x.id ≠ m) (he : e.id = m) :
    findModel (pre ++ e :: post) m = some e := by
  induction pre with
  | nil => simp [findModel, List.find?_cons_of_pos, he]
  | cons x xs ih =>
    have hx : (x.id == m) = false := by
      simp only [beq_eq_false_iff_ne]
      exact hpre x (List.mem_cons_self x xs)
    simp only [List.cons_append, findModel, List.find?]
    rw [hx]
    exact ih (fun y hy => hpre y (List.mem_cons_of_mem x hy))

/-- **C9.**  On a registry containing duplicate ids, the lookup used by the
body-mutation step returns the first matching entry in declaration order,
and when that entry has thinking enabled the injected `reasoning_effort`
comes from it (not from the shadowed duplicate). -/
theorem registry_first_match_wins (pre post : List ModelInfo) (e e2 : ModelInfo) (m : String)
    (fs : List (String × Json))
    (hpre : ∀ x ∈ pre, x.id ≠ m) (he : e.id = m)
    (_hdup : e2 ∈ post ∧ e2.id = m)
    (hfs : jlookup fs "model" = some (Json.str m)) :
    findModel (pre ++ e :: post) m = some e ∧
    (e.enable_thinking = true →
      ∃ fs2, transformValue (pre ++ e :: post) (Json.obj fs) = Json.obj fs2 ∧
        jlookup fs2 "reasoning_effort" = some (Json.str e.reasoning_effort) ∧
        jlookup fs2 "thinking" = some thinkingVal) := by
  have hfind := findModel_append_first pre e post m hpre he
  refine ⟨hfind, fun hth => ?_⟩
  refine ⟨insertField (insertField fs "thinking" thinkingVal) "reasoning_effort"
    (Json.str e.reasoning_effort), ?_, ?_, ?_⟩
  · simp [transformValue, hfs, hfind, hth]
  · exact jlookup_insertField_self _ _ _
  · rw [jlookup_insertField_other _ _ _ _ (by decide)]
    exact jlookup_insertField_self _ _ _

/-- Witness for C9 at a concrete duplicated registry: the first entry's
`low` effort is injected, not the shadowed entry's `high`. -/
theorem registry_first_match_wins_witness :
    findModel [otherModel, dupFirst, dupSecond] "dup" = some dupFirst ∧
    ∃ fs2, transformValue [otherModel, dupFirst, dupSecond] (Json.obj demoDupFields) = Json.obj fs2 ∧
      jlookup fs2 "reasoning_effort" = some (Json.str "low") ∧
      jlookup fs2 "thinking" = some thinkingVal := by
  have h := registry_first_match_wins [otherModel] [dupSecond] dupFirst dupSecond "dup"
    demoDupFields (by decide) (by decide) ⟨List.mem_singleton.mpr rfl, by decide⟩ rfl
  exact ⟨h.1, h.2 rfl⟩

/-! ## Error mapping -/

/-- **C5, counterexample.**  A body-read failure is answered with status
500 (`INTERNAL_SERVER_ERROR`), which is not a 4xx client-error status, so
the claim that a body-read failure yields a client-error response fails. -/
theorem body_read_error_status_not_4xx :
    (renderHandler demoState "/v3/v1/chat/completions"
        (Except.error "connection reset") (Except.error "unused")).status = 500 ∧
    ¬(400 ≤ (renderHandler demoState "/v3/v1/chat/completions"
        (Except.error "connection reset") (Except.error "unused")).status ∧
      (renderHandler demoState "/v3/v1/chat/completions"
        (Except.error "connection reset") (Except.error "unused")).status < 500) := by
  decide

/-- **C5, amended.**  Whenever reading the inbound request body fails, the
handler terminates the request at once with the `BodyReadError` error — no
retry, no upstream call consumed — rendered as a 500 Internal Server Error
(a server-error, not 4xx, status) whose body is `Proxy error: <msg>`. -/
theorem body_read_failure_response (st : AppState) (path msg : String)
    (upstream : Except String UpstreamResponse) :
    proxyHandler st path (Except.error msg) upstream
        = Except.error (ProxyError.BodyReadError msg) ∧
    (renderHandler st path (Except.error msg) upstream).status = 500 ∧
    (renderHandler st path (Except.error msg) upstream).body = "Proxy error: " ++ msg := by
  refine ⟨rfl, ?_, ?_⟩ <;>
    simp [renderHandler, proxyHandler, ProxyError.intoResponse, ProxyError.status, ProxyError.msg]

/-- Witness for C5's amended claim at a concrete failed body read. -/
theorem body_read_failure_response_witness :
    proxyHandler demoState "/v3/v1/chat/completions" (Except.error "boom")
        (Except.error "unused")
      = Except.error (ProxyError.BodyReadError "boom") ∧
    (renderHandler demoState "/v3/v1/chat/completions" (Except.error "boom")
        (Except.error "unused")).status = 500 := by
  have h := body_read_failure_response demoState "/v3/v1/chat/completions" "boom"
    (Except.error "unused")
  exact ⟨h.1, h.2.1⟩

/-! ## Outbound headers -/

theorem forwardedHeaders_not_skipped (hs : List (String × String)) (n v : String)
    (hn : isSkippedInbound n = true) : (n, v) ∉ forwardedHeaders hs := by
  intro hmem
  have h2 := (List.mem_filter.mp hmem).2
  simp [hn] at h2

theorem outbound_filter_auth (key : String) (hs : List (String × String)) :
    ((outboundHeaders key hs).filter (fun p => p.1 == "authorization")).map Prod.snd
      = ["Bearer " ++ key] := by
  have hfwd : (forwardedHeaders hs).filter (fun p => p.1 == "authorization") = [] := by
    rw [List.filter_eq_nil_iff]
    intro p hp
    have h2 := (List.mem_filter.mp hp).2
    simp only [Bool.not_eq_true'] at h2
    simp only [isSkippedInbound, Bool.or_eq_false_iff, beq_eq_false_iff_ne] at h2
    simp [h2.1.2]
  simp [outboundHeaders, List.filter_cons, hfwd]

/-- **C3, counterexample.**  A client-supplied `Content-Type` does reach the
upstream: `reqwest`'s builder appends rather than replaces, and the
forwarding loop does not skip `content-type`, so the outbound request also
carries the client's `content-type: text/plain` next to the injected
`application/json`. -/
theorem client_content_type_reaches_upstream :
    ("content-type", "text/plain") ∈
      (buildOutboundRequest demoState "/v3/v1/chat/completions" "" "POST"
        [("content-type", "text/plain")] "").headers := by
  decide

/-- **C3, amended.**  On every outbound request the Authorization header is
truly overridden — exactly one `authorization` entry is sent, with value
`Bearer <key>` — and `Content-Type: application/json` is always set (the
first two outbound entries are those fixed headers); but a client-supplied
Content-Type is not suppressed: it is forwarded in addition, so the
client's value can reach the upstream alongside `application/json`. -/
theorem outbound_auth_and_content_type (key : String) (hs : List (String × String)) :
    ((outboundHeaders key hs).filter (fun p => p.1 == "authorization")).map Prod.snd
        = ["Bearer " ++ key] ∧
    outboundHeaders key hs = ("authorization", "Bearer " ++ key)
        :: ("content-type", "application/json") :: forwardedHeaders hs ∧
    (∀ v, ("host", v) ∉ outboundHeaders key hs) ∧
    (∀ v, ("content-length", v) ∉ outboundHeaders key hs) ∧
    (∀ p ∈ hs, lowerStr p.1 = "content-type" → (lowerStr p.1, p.2) ∈ outboundHeaders key hs) := by
  refine ⟨outbound_filter_auth key hs, rfl, ?_, ?_, ?_⟩
  · intro v hmem
    simp only [outboundHeaders, List.mem_cons, Prod.mk.injEq] at hmem
    rcases hmem with ⟨h, _⟩ | h
    · exact absurd h (by decide)
    rcases h with ⟨h, _⟩ | h
    · exact absurd h (by decide)
    exact forwardedHeaders_not_skipped hs "host" v (by decide) h
  · intro v hmem
    simp only [outboundHeaders, List.mem_cons, Prod.mk.injEq] at hmem
    rcases hmem with ⟨h, _⟩ | h
    · exact absurd h (by decide)
    rcases h with ⟨h, _⟩ | h
    · exact absurd h (by decide)
    exact forwardedHeaders_not_skipped hs "content-length" v (by decide) h
  · intro p hp hct
    refine List.mem_cons_of_mem _ (List.mem_cons_of_mem _ ?_)
    refine List.mem_filter.mpr ⟨List.mem_map.mpr ⟨p, hp, rfl⟩, ?_⟩
    rw [hct]
    show (!isSkippedInbound "content-type") = true
    decide

/-- Witness for C3's amended claim: with inbound `Content-Type: text/plain`,
the outbound call still carries exactly one authorization header, yet the
client's content-type is forwarded too. -/
theorem outbound_auth_and_content_type_witness :
    ((outboundHeaders "k" [("Content-Type", "text/plain")]).filter
        (fun p => p.1 == "authorization")).map Prod.snd = ["Bearer " ++ "k"] ∧
    ("content-type", "text/plain") ∈ outboundHeaders "k" [("Content-Type", "text/plain")] := by
  have h := outbound_auth_and_content_type "k" [("Content-Type", "text/plain")]
  refine ⟨h.1, ?_⟩
  have h2 := h.2.2.2.2 ("Content-Type", "text/plain")
    (List.mem_singleton.mpr rfl) (by decide)
  have e : lowerStr "Content-Type" = "content-type" := by decide
  rw [e] at h2
  exact h2

/-! ## Body mutation -/

/-- **C1.**  For every body that parses as a JSON object: when its `model`
field is a string naming a registry entry with `enable_thinking = true`, the
outbound body is the serialization of that object with exactly the two
fields `thinking = {"type": "enabled"}` and `reasoning_effort = <entry's
effort>` inserted or overwritten and every other field's presence and value
preserved; when the id is absent, the entry has thinking disabled, or there
is no string `model` field, the object is forwarded untouched (hence
JSON-semantically equal). -/
theorem thinking_injection_spec (reg : List ModelInfo) (fs : List (String × Json)) (body : String)
    (hb : parseJson body = some (Json.obj fs)) :
    (body ≠ "" → processBody reg body = serializeJson (transformValue reg (Json.obj fs))) ∧
    (∀ m mc, jlookup fs "model" = some (Json.str m) → findModel reg m = some mc →
      mc.enable_thinking = true →
      ∃ fs2, transformValue reg (Json.obj fs) = Json.obj fs2 ∧
        jlookup fs2 "thinking" = some thinkingVal ∧
        jlookup fs2 "reasoning_effort" = some (Json.str mc.reasoning_effort) ∧
        (∀ k, k ≠ "thinking" → k ≠ "reasoning_effort" → jlookup fs2 k = jlookup fs k) ∧
        (∀ k, (jlookup fs2 k).isSome
            = ((jlookup fs k).isSome || k == "thinking" || k == "reasoning_effort"))) ∧
    (∀ m mc, jlookup fs "model" = some (Json.str m) → findModel reg m = some mc →
      mc.enable_thinking = false → transformValue reg (Json.obj fs) = Json.obj fs) ∧
    (∀ m, jlookup fs "model" = some (Json.str m) → findModel reg m = none →
      transformValue reg (Json.obj fs) = Json.obj fs) ∧
    ((∀ s, jlookup fs "model" ≠ some (Json.str s)) → transformValue reg (Json.obj fs) = Json.obj fs) := by
  refine ⟨?_, ?_, ?_, ?_, ?_⟩
  · intro hne
    simp [processBody, hne, hb]
  · intro m mc h1 h2 h3
    refine ⟨insertField (insertField fs "thinking" thinkingVal) "reasoning_effort"
      (Json.str mc.reasoning_effort), ?_, ?_, ?_, ?_, ?_⟩
    · simp [transformValue, h1, h2, h3]
    · rw [jlookup_insertField_other _ _ _ _ (by decide)]
      exact jlookup_insertField_self _ _ _
    · exact jlookup_insertField_self _ _ _
    · intro k hk1 hk2
      rw [jlookup_insertField_other _ _ _ _ hk2, jlookup_insertField_other _ _ _ _ hk1]
    · intro k
      rw [jlookup_insertField_isSome, jlookup_insertField_isSome]
  · intro m mc h1 h2 h3
    simp [transformValue, h1, h2, h3]
  · intro m h1 h2
    simp [transformValue, h1, h2]
  · intro hno
    rcases h : jlookup fs "model" with _ | v
    · simp [transformValue, h]
    · cases v with
      | null => simp [transformValue, h]
      | bool b => simp [transformValue, h]
      | num n => simp [transformValue, h]
      | str s => exact absurd h (hno s)
      | arr es => simp [transformValue, h]
      | obj fs2 => simp [transformValue, h]

/-- Witness for C1 at a concrete request body naming `demoModel`. -/
theorem thinking_injection_spec_witness :
    processBody [demoModel] demoBody
        = serializeJson (transformValue [demoModel] (Json.obj demoFields)) ∧
    ∃ fs2, transformValue [demoModel] (Json.obj demoFields) = Json.obj fs2 ∧
      jlookup fs2 "thinking" = some thinkingVal ∧
      jlookup fs2 "reasoning_effort" = some (Json.str "high") := by
  have h := thinking_injection_spec [demoModel] demoFields demoBody (by rfl)
  refine ⟨h.1 (by decide), ?_⟩
  obtain ⟨fs2, e1, e2, e3, _, _⟩ := h.2.1 "m1" demoModel rfl rfl rfl
  exact ⟨fs2, e1, e2, e3⟩

/-- **C4, counterexample.**  A non-empty body that parses to non-object
JSON is *not* forwarded byte-for-byte: `[1, 2]` (6 bytes) is re-serialized
as `[1,2]` (5 bytes). -/
theorem non_object_body_reserialized :
    processBody [] "[1, 2]" ≠ "[1, 2]" ∧ processBody [] "[1, 2]" = "[1,2]" := by
  decide

/-- **C4, amended.**  A non-empty body that fails to parse as JSON is
forwarded byte-for-byte unchanged; a non-empty body that parses to a JSON
value that is not an object is forwarded JSON-semantically unchanged (the
value is left untouched) but re-serialized in compact form, so its bytes
and length may differ from the inbound body.  Neither case raises an
error — `processBody` always yields an outbound body. -/
theorem body_passthrough_behaviour (reg : List ModelInfo) (body : String) :
    (parseJson body = none → processBody reg body = body) ∧
    (∀ j, parseJson body = some j → j.isObj = false → body ≠ "" →
      processBody reg body = serializeJson j ∧ transformValue reg j = j) := by
  constructor
  · intro h
    by_cases hb : body = "" <;> simp [processBody, hb, h]
  · intro j hj hobj hne
    have ht : transformValue reg j = j := by
      cases j with
      | null => rfl
      | bool b => rfl
      | num n => rfl
      | str s => rfl
      | arr es => rfl
      | obj fs => simp [Json.isObj] at hobj
    exact ⟨by simp [processBody, hne, hj, ht], ht⟩

/-- Witness for C4's amended claim: a malformed body passes through
unchanged, a non-object JSON body is re-serialized. -/
theorem body_passthrough_behaviour_witness :
    processBody [] "not json" = "not json" ∧
    processBody [] "[1, 2]" = serializeJson (Json.arr [Json.num 1, Json.num 2]) := by
  refine ⟨(body_passthrough_behaviour [] "not json").1 (by rfl), ?_⟩
  exact ((body_passthrough_behaviour [] "[1, 2]").2
    (Json.arr [Json.num 1, Json.num 2]) (by rfl) rfl (by decide)).1

/-! ## The model-list fallback -/

/-- **C2.**  When the stripped path ends in `/models` and the upstream
status is 404, the handler answers — for every upstream header list and
body — with the synthesized response: status 200, a
`content-type: application/json` header, and the
`{"object": "list", "data": [...]}` document listing the registry in
declaration order, each entry carrying exactly the five `ModelInfo`
fields; an empty registry yields an empty `data` array. -/
theorem models_fallback_spec (st : AppState) (path b : String) (u : UpstreamResponse)
    (hp : strEndsWith (strippedPath path) "/models" = true) (hs : u.status = 404) :
    proxyHandler st path (Except.ok b) (Except.ok u)
        = Except.ok (returnConfiguredModels st.available_models) ∧
    (returnConfiguredModels st.available_models).status = 200 ∧
    (returnConfiguredModels st.available_models).headers
        = [("content-type", "application/json")] ∧
    (returnConfiguredModels st.available_models).body
        = serializeJson (modelsListJson st.available_models) ∧
    (∃ top, modelsListJson st.available_models = Json.obj top ∧
      jlookup top "object" = some (Json.str "list") ∧
      jlookup top "data" = some (Json.arr (st.available_models.map modelInfoJson)) ∧
      ∀ k, (jlookup top k).isSome = (k == "data" || k == "object")) ∧
    (∀ m : ModelInfo, ∃ e, modelInfoJson m = Json.obj e ∧
      jlookup e "id" = some (Json.str m.id) ∧
      jlookup e "object" = some (Json.str m.object) ∧
      jlookup e "owned_by" = some (Json.str m.owned_by) ∧
      jlookup e "enable_thinking" = some (Json.bool m.enable_thinking) ∧
      jlookup e "reasoning_effort" = some (Json.str m.reasoning_effort) ∧
      ∀ k, (jlookup e k).isSome = (k == "enable_thinking" || k == "id" || k == "object"
          || k == "owned_by" || k == "reasoning_effort")) ∧
    modelsListJson [] = Json.obj [("data", Json.arr []), ("object", Json.str "list")] := by
  have hn : normStatus u.status = 404 := by rw [hs]; decide
  refine ⟨by simp [proxyHandler, hp, hn], rfl, rfl, rfl, ?_, ?_, rfl⟩
  · refine ⟨_, rfl, rfl, rfl, ?_⟩
    intro k
    by_cases hd : "data" = k
    · subst hd
      simp [jlookup]
    · by_cases ho : "object" = k
      · subst ho
        simp [jlookup]
      · simp [jlookup, hd, ho, Ne.symm hd, Ne.symm ho]
  · intro m
    refine ⟨_, rfl, ?_, ?_, ?_, ?_, ?_, ?_⟩ <;> try (simp [modelInfoJson, jlookup])
    intro k
    by_cases h1 : "enable_thinking" = k
    · subst h1; simp [modelInfoJson, jlookup]
    · by_cases h2 : "id" = k
      · subst h2; simp [modelInfoJson, jlookup]
      · by_cases h3 : "object" = k
        · subst h3; simp [modelInfoJson, jlookup]
        · by_cases h4 : "owned_by" = k
          · subst h4; simp [modelInfoJson, jlookup]
          · by_cases h5 : "reasoning_effort" = k
            · subst h5; simp [modelInfoJson, jlookup]
            · simp [modelInfoJson, jlookup, h1, h2, h3, h4, h5,
                Ne.symm h1, Ne.symm h2, Ne.symm h3, Ne.symm h4, Ne.symm h5]

/-- Witness for C2: a 404 from the upstream on `/v3/v1/models` with an
unreadable body is replaced by the synthesized single-entry catalog. -/
theorem models_fallback_spec_witness :
    proxyHandler demoStateWithModel "/v3/v1/models" (Except.ok "")
        (Except.ok ⟨404, [("x-up", "1")], Except.error "unreadable"⟩)
      = Except.ok (returnConfiguredModels [demoModel]) ∧
    (returnConfiguredModels [demoModel]).status = 200 ∧
    (returnConfiguredModels [demoModel]).body = serializeJson (modelsListJson [demoModel]) := by
  have h := models_fallback_spec demoStateWithModel "/v3/v1/models" ""
    ⟨404, [("x-up", "1")], Except.error "unreadable"⟩ (by decide) rfl
  exact ⟨h.1, h.2.1, h.2.2.2.1⟩

/-- **C10.**  On the fallback branch (stripped path ending in `/models`,
upstream status 404) the upstream body is never read: the handler's result
is the same whatever the body-read outcome, equals the synthesized model
list, and can never be the `ResponseError` gateway error. -/
theorem models_fallback_skips_upstream_body (st : AppState) (path b : String)
    (status : Nat) (uh : List (String × String)) (ub ub2 : Except String String)
    (hp : strEndsWith (strippedPath path) "/models" = true) (hs : status = 404) :
    proxyHandler st path (Except.ok b) (Except.ok ⟨status, uh, ub⟩)
        = proxyHandler st path (Except.ok b) (Except.ok ⟨status, uh, ub2⟩) ∧
    proxyHandler st path (Except.ok b) (Except.ok ⟨status, uh, ub⟩)
        = Except.ok (returnConfiguredModels st.available_models) ∧
    ∀ e, proxyHandler st path (Except.ok b) (Except.ok ⟨status, uh, ub⟩)
        ≠ Except.error (ProxyError.ResponseError e) := by
  subst hs
  have main : ∀ ub' : Except String String,
      proxyHandler st path (Except.ok b) (Except.ok ⟨404, uh, ub'⟩)
        = Except.ok (returnConfiguredModels st.available_models) := by
    intro ub'
    simp [proxyHandler, hp, normStatus]
  refine ⟨(main ub).trans (main ub2).symm, main ub, ?_⟩
  intro e h
  rw [main ub] at h
  exact Except.noConfusion h

/-- Witness for C10: even when reading the upstream body would fail, the
404-on-`/models` branch returns the synthesized list and no gateway
error. -/
theorem models_fallback_skips_upstream_body_witness :
    proxyHandler demoState "/v3/v1/models" (Except.ok "")
        (Except.ok ⟨404, [], Except.error "connection dropped"⟩)
      = Except.ok (returnConfiguredModels []) ∧
    proxyHandler demoState "/v3/v1/models" (Except.ok "")
        (Except.ok ⟨404, [], Except.error "connection dropped"⟩)
      ≠ Except.error (ProxyError.ResponseError "connection dropped") := by
  have h := models_fallback_skips_upstream_body demoState "/v3/v1/models" "" 404 []
    (Except.error "connection dropped") (Except.ok "unused") (by decide) rfl
  exact ⟨h.2.1, h.2.2 "connection dropped"⟩

/-! ## Default response pass-through -/

theorem mem_hmInsert_iff (acc : List (String × String)) (n v : String) (p : String × String) :
    p ∈ hmInsert acc n v ↔ (p ∈ acc ∧ p.1 ≠ n) ∨ p = (n, v) := by
  simp [hmInsert, List.mem_append, List.mem_filter, bne_iff_ne]

theorem respHeaderStep_foldl_mem (uh : List (String × String)) (acc : List (String × String))
    (p : String × String) (hmem : p ∈ uh.foldl respHeaderStep acc) : p ∈ acc ∨ p ∈ uh := by
  induction uh generalizing acc with
  | nil => exact Or.inl hmem
  | cons q uh ih =>
    rcases ih (respHeaderStep acc q) hmem with h | h
    · unfold respHeaderStep at h
      split at h
      · exact Or.inl h
      · rcases (mem_hmInsert_iff acc q.1 q.2 p).mp h with ⟨ha, _⟩ | he
        · exact Or.inl ha
        · exact Or.inr (he ▸ List.mem_cons_self q uh)
    · exact Or.inr (List.mem_cons_of_mem q h)

theorem respHeaderStep_foldl_not_bad (uh : List (String × String)) (n : String)
    (hn : n = "content-length" ∨ n = "transfer-encoding") :
    ∀ acc : List (String × String), (∀ v, (n, v) ∉ acc) →
      ∀ v, (n, v) ∉ uh.foldl respHeaderStep acc := by
  induction uh with
  | nil => exact fun acc hacc => hacc
  | cons q uh ih =>
    intro acc hacc v
    refine ih (respHeaderStep acc q) ?_ v
    intro w hw
    unfold respHeaderStep at hw
    split at hw
    · exact hacc w hw
    · rcases (mem_hmInsert_iff acc q.1 q.2 (n, w)).mp hw with ⟨ha, _⟩ | he
      · exact hacc w ha
      · rename_i hq
        have : n = q.1 := congrArg Prod.fst he
        rcases hn with rfl | rfl <;> simp [← this] at hq

theorem respHeaderStep_foldl_preserve (uh : List (String × String)) (p : String × String) :
    ∀ acc : List (String × String), p ∈ acc → (∀ q ∈ uh, q.1 ≠ p.1) →
      p ∈ uh.foldl respHeaderStep acc := by
  induction uh with
  | nil => exact fun acc hp _ => hp
  | cons q uh ih =>
    intro acc hp hnames
    refine ih (respHeaderStep acc q) ?_ (fun r hr => hnames r (List.mem_cons_of_mem q hr))
    unfold respHeaderStep
    split
    · exact hp
    · exact (mem_hmInsert_iff acc q.1 q.2 p).mpr
        (Or.inl ⟨hp, fun h => hnames q (List.mem_cons_self q uh) h.symm⟩)

theorem respHeaderStep_foldl_complete (uh : List (String × String)) (p : String × String)
    (h1 : p.1 ≠ "content-length") (h2 : p.1 ≠ "transfer-encoding") :
    ∀ acc : List (String × String), (uh.map Prod.fst).Nodup → p ∈ uh →
      p ∈ uh.foldl respHeaderStep acc := by
  induction uh with
  | nil => intro acc _ hp; cases hp
  | cons q uh ih =>
    intro acc hnd hp
    rw [List.map_cons] at hnd
    have hnd2 := List.nodup_cons.mp hnd
    rcases List.mem_cons.mp hp with rfl | hp
    · refine respHeaderStep_foldl_preserve uh p (respHeaderStep acc p) ?_ ?_
      · unfold respHeaderStep
        have hc : (p.1 == "content-length" || p.1 == "transfer-encoding") = false := by
          simp [h1, h2]
        rw [hc]
        exact (mem_hmInsert_iff acc p.1 p.2 p).mpr (Or.inr rfl)
      · intro r hr hcontra
        exact hnd2.1 (hcontra ▸ List.mem_map_of_mem Prod.fst hr)
    · exact ih (respHeaderStep acc q) hnd2.2 hp

/-- **C8, counterexample.**  The response-header loop uses `insert`, so a
repeated upstream header name collapses to its last value: with upstream
headers `set-cookie: a` and `set-cookie: b`, the handler's response carries
only `set-cookie: b`, not every upstream header. -/
theorem duplicate_upstream_header_dropped :
    proxyHandler demoState "/v3/v1/chat/completions" (Except.ok "")
        (Except.ok ⟨200, [("set-cookie", "a"), ("set-cookie", "b")], Except.ok "B"⟩)
      = Except.ok ⟨200, [("set-cookie", "b")], "B"⟩ ∧
    ("set-cookie", "a") ∉ filterRespHeaders [("set-cookie", "a"), ("set-cookie", "b")] := by
  exact ⟨rfl, by decide⟩

/-- **C8, amended.**  Outside the models fallback, the handler's response
carries the upstream status verbatim, the upstream body bytes verbatim, and
the upstream headers minus `content-length` and `transfer-encoding` — with
repeated names collapsed to the last occurrence's value: every forwarded
header comes from the upstream, the two dropped names never appear, and
when no upstream header name repeats, every other upstream header is
carried. -/
theorem passthrough_response_spec (st : AppState) (path b : String) (status : Nat)
    (uh : List (String × String)) (bodyStr : String)
    (hrange : 100 ≤ status ∧ status ≤ 999)
    (hnf : ¬(strEndsWith (strippedPath path) "/models" = true ∧ status = 404)) :
    proxyHandler st path (Except.ok b) (Except.ok ⟨status, uh, Except.ok bodyStr⟩)
        = Except.ok ⟨status, filterRespHeaders uh, bodyStr⟩ ∧
    (∀ v, ("content-length", v) ∉ filterRespHeaders uh) ∧
    (∀ v, ("transfer-encoding", v) ∉ filterRespHeaders uh) ∧
    (∀ p, p ∈ filterRespHeaders uh → p ∈ uh) ∧
    ((uh.map Prod.fst).Nodup →
      ∀ p ∈ uh, p.1 ≠ "content-length" → p.1 ≠ "transfer-encoding" →
        p ∈ filterRespHeaders uh) := by
  have hst : normStatus status = status := by simp [normStatus, hrange.1, hrange.2]
  refine ⟨?_, ?_, ?_, ?_, ?_⟩
  · cases hE : strEndsWith (strippedPath path) "/models" with
    | false => simp [proxyHandler, hE, hst]
    | true =>
      have h404 : status ≠ 404 := fun h => hnf ⟨hE, h⟩
      have hb : (normStatus status == 404) = false := by
        rw [hst]
        simp [h404]
      simp [proxyHandler, hE, hb, hst]
      exact fun h => absurd h h404
  · exact fun v => respHeaderStep_foldl_not_bad uh "content-length" (Or.inl rfl) []
      (by simp) v
  · exact fun v => respHeaderStep_foldl_not_bad uh "transfer-encoding" (Or.inr rfl) []
      (by simp) v
  · intro p hp
    rcases respHeaderStep_foldl_mem uh [] p hp with h | h
    · cases h
    · exact h
  · intro hnd p hp hp1 hp2
    exact respHeaderStep_foldl_complete uh p hp1 hp2 [] hnd hp

/-- Witness for C8's amended claim at a concrete 500 pass-through with a
`content-length` header dropped and an ordinary header kept. -/
theorem passthrough_response_spec_witness :
    proxyHandler demoState "/v3/v1/chat/completions" (Except.ok "")
        (Except.ok ⟨500, [("x-up", "1"), ("content-length", "3")], Except.ok "ERR"⟩)
      = Except.ok ⟨500, filterRespHeaders [("x-up", "1"), ("content-length", "3")], "ERR"⟩ ∧
    ("content-length", "3") ∉ filterRespHeaders [("x-up", "1"), ("content-length", "3")] ∧
    ("x-up", "1") ∈ filterRespHeaders [("x-up", "1"), ("content-length", "3")] := by
  have h := passthrough_response_spec demoState "/v3/v1/chat/completions" "" 500
    [("x-up", "1"), ("content-length", "3")] "ERR" (by decide) (by decide)
  refine ⟨h.1, h.2.1 "3", ?_⟩
  exact h.2.2.2.2 (by decide) ("x-up", "1") (by decide) (by decide) (by decide)

/-! ## Inbound header filtering -/

theorem outbound_not_host_or_cl (key : String) (hs : List (String × String)) (n v : String)
    (hn : n = "host" ∨ n = "content-length") : (n, v) ∉ outboundHeaders key hs := by
  intro hmem
  simp only [outboundHeaders, List.mem_cons, Prod.mk.injEq] at hmem
  rcases hmem with ⟨h, _⟩ | hmem
  · rcases hn with rfl | rfl <;> exact absurd h (by decide)
  rcases hmem with ⟨h, _⟩ | hmem
  · rcases hn with rfl | rfl <;> exact absurd h (by decide)
  exact forwardedHeaders_not_skipped hs n v
    (by rcases hn with rfl | rfl <;> decide) hmem

/-- **C7.**  The skipped trio never reaches the upstream: no forwarded
header is named `host`, `authorization` or `content-length` (matched on the
lowercased — hence case-insensitive — name), every other inbound header is
copied (lowercased name, value intact) onto the outbound request, and the
outbound call carries exactly one `authorization` header, valued
`Bearer <configured key>`. -/
theorem header_filtering_spec (key : String) (hs : List (String × String)) :
    (∀ n v, isSkippedInbound n = true → (n, v) ∉ forwardedHeaders hs) ∧
    (∀ v, ("host", v) ∉ outboundHeaders key hs) ∧
    (∀ v, ("content-length", v) ∉ outboundHeaders key hs) ∧
    (∀ p ∈ hs, isSkippedInbound (lowerStr p.1) = false →
      (lowerStr p.1, p.2) ∈ outboundHeaders key hs) ∧
    ((outboundHeaders key hs).filter (fun p => p.1 == "authorization")).map Prod.snd
        = ["Bearer " ++ key] := by
  refine ⟨fun n v hn => forwardedHeaders_not_skipped hs n v hn,
    fun v => outbound_not_host_or_cl key hs "host" v (Or.inl rfl),
    fun v => outbound_not_host_or_cl key hs "content-length" v (Or.inr rfl),
    ?_, outbound_filter_auth key hs⟩
  intro p hp hn
  refine List.mem_cons_of_mem _ (List.mem_cons_of_mem _ ?_)
  refine List.mem_filter.mpr ⟨List.mem_map.mpr ⟨p, hp, rfl⟩, ?_⟩
  simp [hn]

/-- Witness for C7: the inbound `Host` header vanishes, an ordinary header
is forwarded lowercased, and exactly one authorization header is sent. -/
theorem header_filtering_spec_witness :
    ("host", "example.com") ∉ outboundHeaders "k" [("Host", "example.com"), ("X-Trace", "7")] ∧
    ("x-trace", "7") ∈ outboundHeaders "k" [("Host", "example.com"), ("X-Trace", "7")] ∧
    ((outboundHeaders "k" [("Host", "example.com"), ("X-Trace", "7")]).filter
        (fun p => p.1 == "authorization")).map Prod.snd = ["Bearer " ++ "k"] := by
  have h := header_filtering_spec "k" [("Host", "example.com"), ("X-Trace", "7")]
  refine ⟨h.2.1 "example.com", ?_, h.2.2.2.2⟩
  have h2 := h.2.2.2.1 ("X-Trace", "7") (by simp) (by decide)
  have e : lowerStr "X-Trace" = "x-trace" := by decide
  rw [e] at h2
  exact h2

end OpenAIProxy
